import Mathlib

/-!
Shallow embedding of the block cellular automaton in src/Block_CA.py.

Cell states are natural numbers (always 0 or 1 in reachable states); the
grid is a total function from coordinates to states, and the cell objects'
in-place mutation is modelled by returning an updated grid function.
Randomness (numpy draws) is modelled by explicit parameters: a function
r giving the uniform [0,1) draw used for each cell's initial state, and
rt, rl for the two integer draws of pattern placement.  Library calls that
raise on bad arguments (np.random.choice on an invalid probability vector,
np.random.randint on an empty range) are modelled with Option: none is a
raised exception escaping the constructor.
-/

namespace BlockCA

/-- A grid of cell states, indexed by (row, column). -/
abbrev Grid := Nat → Nat → Nat

/-- Cell.flip (line 14-16): state ^= 1. -/
def flip (s : Nat) : Nat := s ^^^ 1

/-- Python range(start, stop, 2) as a list of naturals. -/
def pyRange (start stop : Nat) : List Nat :=
  List.range' start ((stop - start + 1) / 2) 2

/-- Board._create_blocks (lines 68-75): top-left coordinates of the 2x2
blocks: both coordinates run over range(start, N, 2), and when wraparound
is off the blocks that would extend past the edge are excluded. -/
def create_blocks (N : Nat) (wraparound : Bool) (start : Nat) :
    List (Nat × Nat) :=
  (pyRange start N).flatMap (fun i =>
    (pyRange start N).filterMap (fun j =>
      if wraparound ∨ (i + 1 < N ∧ j + 1 < N) then some (i, j) else none))

/-- The four cell positions of the block at origin (i, j) (lines 83-86),
in the order top-left, top-right, bottom-left, bottom-right. -/
def blockIndices (N i j : Nat) : List (Nat × Nat) :=
  [(i, j), (i, (j + 1) % N), ((i + 1) % N, j), ((i + 1) % N, (j + 1) % N)]

/-- density (line 88): sum of the states of the listed cells (a position
occurring several times in the list is counted as often as it occurs,
exactly as the Python sum over the cells list counts aliased objects). -/
def density (g : Grid) (l : List (Nat × Nat)) : Nat :=
  (l.map (fun q => g q.1 q.2)).sum

/-- The loop `for cell in cells: cell.flip()` (lines 93-94 and 99-100):
each cell object is flipped once per occurrence in the list, so a position
is complemented exactly when its occurrence count is odd. -/
def flipCells (g : Grid) (l : List (Nat × Nat)) : Grid :=
  fun x y => if l.count (x, y) % 2 = 1 then flip (g x y) else g x y

/-- The two simultaneous swaps of lines 97-98: grid[i][j] with
grid[i+1 mod N][j+1 mod N], and grid[i][j+1 mod N] with
grid[i+1 mod N][j]. -/
def rotate180 (g : Grid) (N i j : Nat) : Grid :=
  fun x y =>
    if x = i ∧ y = j then g ((i + 1) % N) ((j + 1) % N)
    else if x = (i + 1) % N ∧ y = (j + 1) % N then g i j
    else if x = i ∧ y = (j + 1) % N then g ((i + 1) % N) j
    else if x = (i + 1) % N ∧ y = j then g i ((j + 1) % N)
    else g x y

/-- Board.apply_block_rules (lines 77-100).  The cells list of the source
holds the four cell objects of the block; in the density-3 branch the two
diagonal swaps relocate those objects, after which every object in the
list is flipped, which is flipping each of the four block positions of the
swapped grid. -/
def apply_block_rules (N : Nat) (wraparound : Bool) (g : Grid) (i j : Nat) :
    Grid :=
  if wraparound = false ∧ (i + 1 ≥ N ∨ j + 1 ≥ N) then g
  else
    let idx := blockIndices N i j
    let d := density g idx
    if d = 2 then g
    else if d = 0 ∨ d = 1 ∨ d = 4 then flipCells g idx
    else if d = 3 then flipCells (rotate180 g N i j) idx
    else g

/-- The Board object: size, wraparound flag, the two block-origin lists
computed at construction, and the grid of cell states. -/
structure Board where
  N : Nat
  wraparound : Bool
  blocks_even : List (Nat × Nat)
  blocks_odd : List (Nat × Nat)
  grid : Grid

/-- Line 104: `blocks = self.blocks_even if even else self.blocks_odd`. -/
def Board.activeBlocks (b : Board) (even : Bool) : List (Nat × Nat) :=
  if even then b.blocks_even else b.blocks_odd

/-- Board.step (lines 102-106): apply the block rule at every origin of
the active list, in list order. -/
def Board.step (b : Board) (even : Bool) : Board :=
  { b with
    grid := (b.activeBlocks even).foldl
      (fun g q => apply_block_rules b.N b.wraparound g q.1 q.2) b.grid }

/-- Cell.__init__ (lines 10-12): np.random.choice([0, 1], p=[1-p, p])
raises ValueError unless the probability vector is valid, i.e. unless
0 ≤ p ≤ 1; otherwise the cell is alive with probability p, modelled by
thresholding the uniform [0,1) draw r against p. -/
def cell_init (p r : ℚ) : Option Nat :=
  if 0 ≤ p ∧ p ≤ 1 then some (if r < p then 1 else 0) else none

/-- Board._initialize_odd_columns (lines 37-44). -/
def init_odd_cols (N : Nat) (g : Grid) : Grid :=
  fun x y => if x < N ∧ y < N then (if y % 2 = 1 then 1 else 0) else g x y

/-- Board._initialize_diagonal_pattern (lines 46-53). -/
def init_diagonals (N : Nat) (g : Grid) : Grid :=
  fun x y =>
    if x < N ∧ y < N then (if (x + y) % 2 = 1 then 1 else 0) else g x y

/-- The nested copy loop of Board._place_pattern (lines 63-66): write
pattern[i][j] to grid[top+i][left+j] whenever that position is on the
grid; positions outside the pattern's rows keep their previous state. -/
def stamp (N : Nat) (pattern : List (List Nat)) (top left : Nat)
    (g : Grid) : Grid :=
  fun x y =>
    if top ≤ x ∧ left ≤ y ∧ x < N ∧ y < N then
      ((pattern[x - top]?.bind (fun row => row[y - left]?)).getD (g x y))
    else g x y

/-- Board._place_pattern (lines 55-66).  height = len(pattern), width =
len(pattern[0]) (an empty pattern raises IndexError, modelled as none);
max_top = N - height and max_left = N - width are Python ints, possibly
negative, and // is floor division, hence Int.fdiv.  np.random.randint(0, k)
raises ValueError when k ≤ 0 (modelled as none) and otherwise returns a
uniform draw in [0, k), modelled as rt % k and rl % k. -/
def place_pattern (N : Nat) (g : Grid) (pattern : List (List Nat))
    (rt rl : Nat) : Option Grid :=
  if pattern.length = 0 then none
  else
    let max_top : Int := (N : Int) - pattern.length
    let max_left : Int := (N : Int) - (pattern.headD []).length
    if (max_top + 1).fdiv 2 ≤ 0 ∨ (max_left + 1).fdiv 2 ≤ 0 then none
    else
      let top := (rt % ((max_top + 1).fdiv 2).toNat) * 2 + 1
      let left := (rl % ((max_left + 1).fdiv 2).toNat) * 2 + 1
      some (stamp N pattern top left g)

/-- Board.__init__ (lines 20-35): record N and the wraparound flag,
compute blocks_even with start=1 and blocks_odd with start=0, build the
N x N grid of cell_init draws (which raises, i.e. none, exactly when
N ≥ 1 and p is outside [0,1]), then either place the glider pattern or
apply the selected initialization mode. -/
def mkBoard (N : Nat) (p : ℚ) (wraparound : Bool)
    (glider : Option (List (List Nat))) (init_mode : String)
    (r : Nat → Nat → ℚ) (rt rl : Nat) : Option Board :=
  if 1 ≤ N ∧ ¬(0 ≤ p ∧ p ≤ 1) then none
  else
    let g0 : Grid := fun x y => if r x y < p then 1 else 0
    let be := create_blocks N wraparound 1
    let bo := create_blocks N wraparound 0
    match glider with
    | some pat =>
      match place_pattern N g0 pat rt rl with
      | some g => some ⟨N, wraparound, be, bo, g⟩
      | none => none
    | none =>
      if init_mode = "Odd Columns Alive" then
        some ⟨N, wraparound, be, bo, init_odd_cols N g0⟩
      else if init_mode = "Odd Diagonals Alive" then
        some ⟨N, wraparound, be, bo, init_diagonals N g0⟩
      else some ⟨N, wraparound, be, bo, g0⟩

/-- The GameManager object (lines 114-121). -/
structure GameManager where
  N : Nat
  p : ℚ
  max_steps : Nat
  wraparound : Bool
  board : Board
  current_step : Nat

/-- GameManager.__init__ (lines 115-121): construct the board (any
exception from Board.__init__ escapes) and start the step counter at 0. -/
def mkGameManager (N : Nat) (p : ℚ) (max_steps : Nat) (wraparound : Bool)
    (glider : Option (List (List Nat))) (init_mode : String)
    (r : Nat → Nat → ℚ) (rt rl : Nat) : Option GameManager :=
  (mkBoard N p wraparound glider init_mode r rt rl).map
    (fun b => ⟨N, p, max_steps, wraparound, b, 0⟩)

/-- GameManager.step (lines 123-127): even = (current_step % 2 == 0),
board.step(even), then increment the counter. -/
def GameManager.step (gm : GameManager) : GameManager :=
  { gm with
    board := gm.board.step (gm.current_step % 2 == 0)
    current_step := gm.current_step + 1 }

/-- The driver loop (run_simulation, lines 314-315) calls step() once per
iteration: the engine after k such calls. -/
def GameManager.stepN (gm : GameManager) : Nat → GameManager
  | 0 => gm
  | k + 1 => (gm.stepN k).step

/-- The concrete 4x4 scenario of the spec: block at origin (0,0) with
top-left, top-right and bottom-left alive and bottom-right dead
(density 3); all other cells dead. -/
def gScenario3 : Grid := fun x y =>
  if x = 0 ∧ y = 0 then 1
  else if x = 0 ∧ y = 1 then 1
  else if x = 1 ∧ y = 0 then 1
  else 0

/-- The all-dead grid: every block has density 0. -/
def gZero : Grid := fun _ _ => 0

/-- The fixed glider template of the repository (line 159). -/
def gliderPattern : List (List Nat) := [[0, 1], [1, 0], [1, 0], [0, 1]]

/-! ### Basic facts about the embedding -/

theorem succ_mod {N i : Nat} (hi : i < N) :
    (i + 1) % N = if i + 1 = N then 0 else i + 1 := by
  by_cases h : i + 1 = N
  · simp [h]
  · simp [h, Nat.mod_eq_of_lt (by omega : i + 1 < N)]

theorem succ_mod_ne {N i : Nat} (hN : 2 ≤ N) (hi : i < N) :
    (i + 1) % N ≠ i := by
  rw [succ_mod hi]
  split <;> omega

theorem flip_eq {s : Nat} (h : s ≤ 1) : flip s = 1 - s := by
  interval_cases s <;> rfl

theorem count_blockIndices {N i j : Nat} (hi : (i + 1) % N ≠ i)
    (hj : (j + 1) % N ≠ j) {q : Nat × Nat} (hq : q ∈ blockIndices N i j) :
    (blockIndices N i j).count q = 1 := by
  have hi' : i ≠ (i + 1) % N := Ne.symm hi
  have hj' : j ≠ (j + 1) % N := Ne.symm hj
  simp only [blockIndices, List.mem_cons, List.not_mem_nil, or_false] at hq
  rcases hq with rfl | rfl | rfl | rfl <;>
    simp [blockIndices, List.count_cons, Prod.ext_iff, hi, hj, hi', hj']

theorem flipCells_count_one {g : Grid} {l : List (Nat × Nat)} {x y : Nat}
    (h : l.count (x, y) = 1) : flipCells g l x y = flip (g x y) := by
  simp [flipCells, h]

theorem flipCells_not_mem {g : Grid} {l : List (Nat × Nat)} {x y : Nat}
    (h : (x, y) ∉ l) : flipCells g l x y = g x y := by
  simp [flipCells, List.count_eq_zero.mpr h]

theorem rotate180_tl (g : Grid) (N i j : Nat) :
    rotate180 g N i j i j = g ((i + 1) % N) ((j + 1) % N) := by
  simp [rotate180]

theorem rotate180_br {N i j : Nat} (g : Grid) (hi : (i + 1) % N ≠ i)
    (hj : (j + 1) % N ≠ j) :
    rotate180 g N i j ((i + 1) % N) ((j + 1) % N) = g i j := by
  simp [rotate180, hi, hj]

theorem rotate180_tr {N i j : Nat} (g : Grid) (hi : (i + 1) % N ≠ i)
    (hj : (j + 1) % N ≠ j) :
    rotate180 g N i j i ((j + 1) % N) = g ((i + 1) % N) j := by
  simp [rotate180, hj, Ne.symm hi]

theorem rotate180_bl {N i j : Nat} (g : Grid) (hi : (i + 1) % N ≠ i)
    (hj : (j + 1) % N ≠ j) :
    rotate180 g N i j ((i + 1) % N) j = g i ((j + 1) % N) := by
  simp [rotate180, hi, Ne.symm hj]

theorem rotate180_off {N i j x y : Nat} (g : Grid)
    (h : (x, y) ∉ blockIndices N i j) : rotate180 g N i j x y = g x y := by
  simp only [blockIndices, List.mem_cons, List.not_mem_nil, or_false,
    not_or, Prod.ext_iff] at h
  obtain ⟨h1, h2, h3, h4⟩ := h
  simp only [rotate180, if_neg h1, if_neg h4, if_neg h2, if_neg h3]

theorem guard_not_taken {wraparound : Bool} {N i j : Nat}
    (h : wraparound = true ∨ (i + 1 < N ∧ j + 1 < N)) :
    ¬(wraparound = false ∧ (i + 1 ≥ N ∨ j + 1 ≥ N)) := by
  rcases h with h | h
  · simp [h]
  · rintro ⟨_, hc⟩
    rcases hc with hc | hc <;> omega

theorem apply_eq_of_density_two {N : Nat} {wraparound : Bool} {g : Grid}
    {i j : Nat} (hguard : wraparound = true ∨ (i + 1 < N ∧ j + 1 < N))
    (hden : density g (blockIndices N i j) = 2) :
    apply_block_rules N wraparound g i j = g := by
  simp [apply_block_rules, guard_not_taken hguard, hden]

theorem apply_eq_of_density_flip {N : Nat} {wraparound : Bool} {g : Grid}
    {i j : Nat} (hguard : wraparound = true ∨ (i + 1 < N ∧ j + 1 < N))
    (hden : density g (blockIndices N i j) = 0 ∨
      density g (blockIndices N i j) = 1 ∨
      density g (blockIndices N i j) = 4) :
    apply_block_rules N wraparound g i j = flipCells g (blockIndices N i j) := by
  rcases hden with hden | hden | hden <;>
    simp [apply_block_rules, guard_not_taken hguard, hden]

theorem apply_eq_of_density_three {N : Nat} {wraparound : Bool} {g : Grid}
    {i j : Nat} (hguard : wraparound = true ∨ (i + 1 < N ∧ j + 1 < N))
    (hden : density g (blockIndices N i j) = 3) :
    apply_block_rules N wraparound g i j =
      flipCells (rotate180 g N i j) (blockIndices N i j) := by
  simp [apply_block_rules, guard_not_taken hguard, hden]

/-! ### Claims about apply_block_rules -/

/-- C2: on a 2x2 block of density exactly 3, apply_block_rules swaps the
two diagonal pairs and complements all four states, so the block's
post-call alive count is exactly 1; cells outside the block are
untouched. -/
theorem blockCA_C2 (N : Nat) (wraparound : Bool) (g : Grid) (i j : Nat)
    (hN : 2 ≤ N) (hi : i < N) (hj : j < N)
    (hwrap : wraparound = true ∨ (i + 1 < N ∧ j + 1 < N))
    (hbin : ∀ q ∈ blockIndices N i j, g q.1 q.2 ≤ 1)
    (hden : density g (blockIndices N i j) = 3) :
    apply_block_rules N wraparound g i j i j = 1 - g ((i + 1) % N) ((j + 1) % N) ∧
    apply_block_rules N wraparound g i j ((i + 1) % N) ((j + 1) % N) = 1 - g i j ∧
    apply_block_rules N wraparound g i j i ((j + 1) % N) = 1 - g ((i + 1) % N) j ∧
    apply_block_rules N wraparound g i j ((i + 1) % N) j = 1 - g i ((j + 1) % N) ∧
    (∀ x y, (x, y) ∉ blockIndices N i j →
      apply_block_rules N wraparound g i j x y = g x y) ∧
    density (apply_block_rules N wraparound g i j) (blockIndices N i j) = 1 := by
  have hi1 : (i + 1) % N ≠ i := succ_mod_ne hN hi
  have hj1 : (j + 1) % N ≠ j := succ_mod_ne hN hj
  have happ := apply_eq_of_density_three hwrap hden
  have m00 : (i, j) ∈ blockIndices N i j := by simp [blockIndices]
  have m01 : (i, (j + 1) % N) ∈ blockIndices N i j := by simp [blockIndices]
  have m10 : ((i + 1) % N, j) ∈ blockIndices N i j := by simp [blockIndices]
  have m11 : ((i + 1) % N, (j + 1) % N) ∈ blockIndices N i j := by
    simp [blockIndices]
  have e00 : apply_block_rules N wraparound g i j i j =
      flip (g ((i + 1) % N) ((j + 1) % N)) := by
    rw [happ, flipCells_count_one (count_blockIndices hi1 hj1 m00),
      rotate180_tl]
  have e11 : apply_block_rules N wraparound g i j ((i + 1) % N) ((j + 1) % N) =
      flip (g i j) := by
    rw [happ, flipCells_count_one (count_blockIndices hi1 hj1 m11),
      rotate180_br g hi1 hj1]
  have e01 : apply_block_rules N wraparound g i j i ((j + 1) % N) =
      flip (g ((i + 1) % N) j) := by
    rw [happ, flipCells_count_one (count_blockIndices hi1 hj1 m01),
      rotate180_tr g hi1 hj1]
  have e10 : apply_block_rules N wraparound g i j ((i + 1) % N) j =
      flip (g i ((j + 1) % N)) := by
    rw [happ, flipCells_count_one (count_blockIndices hi1 hj1 m10),
      rotate180_bl g hi1 hj1]
  have b00 : g i j ≤ 1 := hbin _ m00
  have b01 : g i ((j + 1) % N) ≤ 1 := hbin _ m01
  have b10 : g ((i + 1) % N) j ≤ 1 := hbin _ m10
  have b11 : g ((i + 1) % N) ((j + 1) % N) ≤ 1 := hbin _ m11
  refine ⟨by rw [e00, flip_eq b11], by rw [e11, flip_eq b00],
    by rw [e01, flip_eq b10], by rw [e10, flip_eq b01], ?_, ?_⟩
  · intro x y hxy
    rw [happ, flipCells_not_mem hxy, rotate180_off g hxy]
  · simp only [density, blockIndices, List.map_cons, List.map_nil,
      List.sum_cons, List.sum_nil] at hden ⊢
    rw [e00, e11, e01, e10, flip_eq b11, flip_eq b00, flip_eq b10,
      flip_eq b01]
    omega

/-- C4: on a 2x2 block of density 0, 1 or 4, apply_block_rules complements
every one of the four cells in place and touches nothing else; on a block
of density 2 the grid is returned bit-for-bit unchanged. -/
theorem blockCA_C4 (N : Nat) (wraparound : Bool) (g : Grid) (i j : Nat)
    (hN : 2 ≤ N) (hi : i < N) (hj : j < N)
    (hwrap : wraparound = true ∨ (i + 1 < N ∧ j + 1 < N))
    (hbin : ∀ q ∈ blockIndices N i j, g q.1 q.2 ≤ 1) :
    ((density g (blockIndices N i j) = 0 ∨
      density g (blockIndices N i j) = 1 ∨
      density g (blockIndices N i j) = 4) →
      (∀ q ∈ blockIndices N i j,
        apply_block_rules N wraparound g i j q.1 q.2 = 1 - g q.1 q.2) ∧
      (∀ x y, (x, y) ∉ blockIndices N i j →
        apply_block_rules N wraparound g i j x y = g x y)) ∧
    (density g (blockIndices N i j) = 2 →
      ∀ x y, apply_block_rules N wraparound g i j x y = g x y) := by
  have hi1 : (i + 1) % N ≠ i := succ_mod_ne hN hi
  have hj1 : (j + 1) % N ≠ j := succ_mod_ne hN hj
  constructor
  · intro hden
    have happ := apply_eq_of_density_flip hwrap hden
    constructor
    · intro q hq
      rw [happ, flipCells_count_one (count_blockIndices hi1 hj1 hq),
        flip_eq (hbin _ hq)]
    · intro x y hxy
      rw [happ, flipCells_not_mem hxy]
  · intro hden x y
    rw [apply_eq_of_density_two hwrap hden]

/-- C3 counterexample: on the spec's density-3 scenario the rule does NOT
leave all four cells dead — the new top-left cell is alive (the old dead
bottom-right cell arrives there and is complemented to 1). -/
theorem blockCA_C3_cex :
    ¬(apply_block_rules 4 true gScenario3 0 0 0 0 = 0 ∧
      apply_block_rules 4 true gScenario3 0 0 0 1 = 0 ∧
      apply_block_rules 4 true gScenario3 0 0 1 0 = 0 ∧
      apply_block_rules 4 true gScenario3 0 0 1 1 = 0 ∧
      density (apply_block_rules 4 true gScenario3 0 0)
        (blockIndices 4 0 0) = 1) := by decide

/-- C3 amended: the density-3 scenario block [1,1,1,0] transitions to
top-left = 1, top-right = 0, bottom-left = 0, bottom-right = 0, with
exactly one cell alive. -/
theorem blockCA_C3_amended :
    density gScenario3 (blockIndices 4 0 0) = 3 ∧
    apply_block_rules 4 true gScenario3 0 0 0 0 = 1 ∧
    apply_block_rules 4 true gScenario3 0 0 0 1 = 0 ∧
    apply_block_rules 4 true gScenario3 0 0 1 0 = 0 ∧
    apply_block_rules 4 true gScenario3 0 0 1 1 = 0 ∧
    density (apply_block_rules 4 true gScenario3 0 0)
      (blockIndices 4 0 0) = 1 := by decide

/-- C2 witness: the density-3 rule theorem instantiated on the concrete
scenario grid. -/
theorem blockCA_C2_witness :
    apply_block_rules 4 true gScenario3 0 0 0 0 = 1 - gScenario3 1 1 ∧
    apply_block_rules 4 true gScenario3 0 0 1 1 = 1 - gScenario3 0 0 ∧
    apply_block_rules 4 true gScenario3 0 0 0 1 = 1 - gScenario3 1 0 ∧
    apply_block_rules 4 true gScenario3 0 0 1 0 = 1 - gScenario3 0 1 ∧
    (∀ x y, (x, y) ∉ blockIndices 4 0 0 →
      apply_block_rules 4 true gScenario3 0 0 x y = gScenario3 x y) ∧
    density (apply_block_rules 4 true gScenario3 0 0)
      (blockIndices 4 0 0) = 1 :=
  blockCA_C2 4 true gScenario3 0 0 (by decide) (by decide) (by decide)
    (Or.inl rfl) (by decide) (by decide)

/-- C4 witness: the density table theorem instantiated on the all-dead
grid at block origin (0,0) of a 4x4 wraparound grid. -/
theorem blockCA_C4_witness :
    ((density gZero (blockIndices 4 0 0) = 0 ∨
      density gZero (blockIndices 4 0 0) = 1 ∨
      density gZero (blockIndices 4 0 0) = 4) →
      (∀ q ∈ blockIndices 4 0 0,
        apply_block_rules 4 true gZero 0 0 q.1 q.2 = 1 - gZero q.1 q.2) ∧
      (∀ x y, (x, y) ∉ blockIndices 4 0 0 →
        apply_block_rules 4 true gZero 0 0 x y = gZero x y)) ∧
    (density gZero (blockIndices 4 0 0) = 2 →
      ∀ x y, apply_block_rules 4 true gZero 0 0 x y = gZero x y) :=
  blockCA_C4 4 true gZero 0 0 (by decide) (by decide) (by decide)
    (Or.inl rfl) (by decide)

/-! ### Membership in the block-origin lists -/

theorem mem_pyRange {start N x : Nat} :
    x ∈ pyRange start N ↔ start ≤ x ∧ x < N ∧ (x - start) % 2 = 0 := by
  unfold pyRange
  rw [List.mem_range']
  constructor
  · rintro ⟨k, hk, rfl⟩
    omega
  · rintro ⟨h1, h2, h3⟩
    exact ⟨(x - start) / 2, by omega, by omega⟩

theorem mem_create_blocks {N start i j : Nat} {wraparound : Bool} :
    (i, j) ∈ create_blocks N wraparound start ↔
      (start ≤ i ∧ i < N ∧ (i - start) % 2 = 0) ∧
      (start ≤ j ∧ j < N ∧ (j - start) % 2 = 0) ∧
      (wraparound = true ∨ (i + 1 < N ∧ j + 1 < N)) := by
  unfold create_blocks
  rw [List.mem_flatMap]
  constructor
  · rintro ⟨a, ha, hm⟩
    rw [List.mem_filterMap] at hm
    obtain ⟨b, hb, hab⟩ := hm
    split at hab
    · rw [Option.some_inj, Prod.ext_iff] at hab
      obtain ⟨h1, h2⟩ := hab
      simp only at h1 h2
      subst h1; subst h2
      exact ⟨mem_pyRange.mp ha, mem_pyRange.mp hb, by assumption⟩
    · exact absurd hab (by simp)
  · rintro ⟨hi, hj, hw⟩
    refine ⟨i, mem_pyRange.mpr hi, ?_⟩
    rw [List.mem_filterMap]
    exact ⟨j, mem_pyRange.mpr hj, by rw [if_pos hw]⟩

theorem mem_blockIndices {N i j x y : Nat} :
    (x, y) ∈ blockIndices N i j ↔
      (x = i ∨ x = (i + 1) % N) ∧ (y = j ∨ y = (j + 1) % N) := by
  simp only [blockIndices, List.mem_cons, List.not_mem_nil, or_false,
    Prod.ext_iff]
  tauto

/-- Each cell row is covered by exactly one origin row of the tiling with
offset s, for s = 0 or 1, when N is even and wraparound applies. -/
theorem row_unique {N s x : Nat} (hN : N % 2 = 0) (hpos : 0 < N)
    (hs : s ≤ 1) (hx : x < N) :
    ∃! i, (s ≤ i ∧ i < N ∧ (i - s) % 2 = 0) ∧ (x = i ∨ x = (i + 1) % N) := by
  have hN2 : 2 ≤ N := by omega
  refine ⟨if x % 2 = s % 2 then x else if x = 0 then N - 1 else x - 1,
    ?_, ?_⟩
  · split_ifs with h1 h2
    · exact ⟨⟨by omega, by omega, by omega⟩, Or.inl rfl⟩
    · refine ⟨⟨by omega, by omega, by omega⟩, Or.inr ?_⟩
      have hn : N - 1 + 1 = N := by omega
      rw [hn, Nat.mod_self, h2]
    · refine ⟨⟨by omega, by omega, by omega⟩, Or.inr ?_⟩
      have hx1 : x - 1 + 1 = x := by omega
      rw [hx1, Nat.mod_eq_of_lt hx]
  · rintro i ⟨⟨hsi, hiN, hpar⟩, hcov⟩
    have hm := succ_mod hiN
    rcases hcov with rfl | hcov
    · split_ifs <;> omega
    · rw [hm] at hcov
      split at hcov <;> split_ifs <;> omega

/-- For N even and wraparound true, the tiling with offset s (s = 0 or 1)
covers every cell of the grid by exactly one of its blocks. -/
theorem tiling_exists_unique {N s : Nat} (hN : N % 2 = 0) (hpos : 0 < N)
    (hs : s ≤ 1) {x y : Nat} (hx : x < N) (hy : y < N) :
    ∃! q : Nat × Nat, q ∈ create_blocks N true s ∧
      (x, y) ∈ blockIndices N q.1 q.2 := by
  obtain ⟨i0, hi0, hiu⟩ := row_unique hN hpos hs hx
  obtain ⟨j0, hj0, hju⟩ := row_unique hN hpos hs hy
  refine ⟨(i0, j0), ⟨?_, ?_⟩, ?_⟩
  · exact mem_create_blocks.mpr ⟨hi0.1, hj0.1, Or.inl rfl⟩
  · exact mem_blockIndices.mpr ⟨hi0.2, hj0.2⟩
  · rintro ⟨i, j⟩ ⟨hmem, hcov⟩
    rw [mem_create_blocks] at hmem
    rw [mem_blockIndices] at hcov
    have h1 := hiu i ⟨hmem.1, hcov.1⟩
    have h2 := hju j ⟨hmem.2.1, hcov.2⟩
    rw [Prod.ext_iff]
    exact ⟨h1, h2⟩

/-- C5: for every even-size wraparound grid, each of the two precomputed
block-origin lists (offsets 0 and 1) tiles the grid: every cell belongs
to exactly one 2x2 block of each list. -/
theorem blockCA_C5 (N : Nat) (hN : N % 2 = 0) (hpos : 0 < N) (x y : Nat)
    (hx : x < N) (hy : y < N) :
    (∃! q : Nat × Nat, q ∈ create_blocks N true 0 ∧
      (x, y) ∈ blockIndices N q.1 q.2) ∧
    (∃! q : Nat × Nat, q ∈ create_blocks N true 1 ∧
      (x, y) ∈ blockIndices N q.1 q.2) :=
  ⟨tiling_exists_unique hN hpos (by omega) hx hy,
   tiling_exists_unique hN hpos (by omega) hx hy⟩

/-- C5 witness: the two tilings of the 4x4 wraparound grid each cover
cell (2, 3) exactly once. -/
theorem blockCA_C5_witness :
    (∃! q : Nat × Nat, q ∈ create_blocks 4 true 0 ∧
      (2, 3) ∈ blockIndices 4 q.1 q.2) ∧
    (∃! q : Nat × Nat, q ∈ create_blocks 4 true 1 ∧
      (2, 3) ∈ blockIndices 4 q.1 q.2) :=
  blockCA_C5 4 (by decide) (by decide) 2 3 (by decide) (by decide)

/-! ### What a successful construction determines -/

theorem mkBoard_fields {N : Nat} {p : ℚ} {wraparound : Bool}
    {glider : Option (List (List Nat))} {init_mode : String}
    {r : Nat → Nat → ℚ} {rt rl : Nat} {b : Board}
    (h : mkBoard N p wraparound glider init_mode r rt rl = some b) :
    b.N = N ∧ b.wraparound = wraparound ∧
    b.blocks_even = create_blocks N wraparound 1 ∧
    b.blocks_odd = create_blocks N wraparound 0 := by
  simp only [mkBoard] at h
  split at h
  · exact absurd h (by simp)
  · split at h
    · split at h
      · rw [Option.some_inj] at h
        subst h
        exact ⟨rfl, rfl, rfl, rfl⟩
      · exact absurd h (by simp)
    · split_ifs at h <;>
        (rw [Option.some_inj] at h; subst h; exact ⟨rfl, rfl, rfl, rfl⟩)

theorem mkGameManager_fields {N : Nat} {p : ℚ} {max_steps : Nat}
    {wraparound : Bool} {glider : Option (List (List Nat))}
    {init_mode : String} {r : Nat → Nat → ℚ} {rt rl : Nat}
    {gm : GameManager}
    (h : mkGameManager N p max_steps wraparound glider init_mode r rt rl =
      some gm) :
    gm.N = N ∧ gm.wraparound = wraparound ∧ gm.current_step = 0 ∧
    mkBoard N p wraparound glider init_mode r rt rl = some gm.board := by
  unfold mkGameManager at h
  rw [Option.map_eq_some'] at h
  obtain ⟨b, hb, hgm⟩ := h
  subst hgm
  exact ⟨rfl, rfl, rfl, hb⟩

/-- C6: in the non-wraparound case, every origin of either precomputed
block list keeps its whole 2x2 block inside the grid, so the early-return
guard of apply_block_rules never fires for an origin from those lists. -/
theorem blockCA_C6 (N : Nat) (p : ℚ) (glider : Option (List (List Nat)))
    (init_mode : String) (r : Nat → Nat → ℚ) (rt rl : Nat) (b : Board)
    (hb : mkBoard N p false glider init_mode r rt rl = some b)
    (i j : Nat) (hij : (i, j) ∈ b.blocks_even ∨ (i, j) ∈ b.blocks_odd) :
    i + 1 < N ∧ j + 1 < N ∧
    ¬(b.wraparound = false ∧ (i + 1 ≥ N ∨ j + 1 ≥ N)) := by
  obtain ⟨hN, hw, he, ho⟩ := mkBoard_fields hb
  have hbound : i + 1 < N ∧ j + 1 < N := by
    rcases hij with hm | hm
    · rw [he, mem_create_blocks] at hm
      rcases hm.2.2 with hc | hc
      · exact absurd hc (by simp)
      · exact hc
    · rw [ho, mem_create_blocks] at hm
      rcases hm.2.2 with hc | hc
      · exact absurd hc (by simp)
      · exact hc
  refine ⟨hbound.1, hbound.2, ?_⟩
  rintro ⟨_, hc⟩
  rcases hc with hc | hc <;> omega

/-- C6 witness: the 4x4 non-wraparound board built in random mode, at the
origin (1,1) of its blocks_even list. -/
theorem blockCA_C6_witness :
    ∃ b, mkBoard 4 (mkRat 1 2) false none "Random" (fun _ _ => (1 : ℚ)) 0 0 =
        some b ∧
      (1 + 1 < 4 ∧ 1 + 1 < 4 ∧
        ¬(b.wraparound = false ∧ (1 + 1 ≥ 4 ∨ 1 + 1 ≥ 4))) := by
  refine ⟨⟨4, false, create_blocks 4 false 1, create_blocks 4 false 0,
    fun x y => if (1 : ℚ) < mkRat 1 2 then 1 else 0⟩, by rfl, ?_⟩
  exact blockCA_C6 4 (mkRat 1 2) none "Random" (fun _ _ => (1 : ℚ)) 0 0 _ rfl 1 1
    (Or.inl (by decide))

/-! ### Frame effect of a non-wraparound odd-offset step -/

theorem apply_block_rules_cases (N : Nat) (wraparound : Bool) (g : Grid)
    (i j : Nat) :
    apply_block_rules N wraparound g i j = g ∨
    apply_block_rules N wraparound g i j = flipCells g (blockIndices N i j) ∨
    apply_block_rules N wraparound g i j =
      flipCells (rotate180 g N i j) (blockIndices N i j) := by
  simp only [apply_block_rules]
  split_ifs <;> tauto

theorem apply_block_rules_off {N : Nat} {wraparound : Bool} {g : Grid}
    {i j x y : Nat} (h : (x, y) ∉ blockIndices N i j) :
    apply_block_rules N wraparound g i j x y = g x y := by
  rcases apply_block_rules_cases N wraparound g i j with hc | hc | hc <;>
    rw [hc]
  · rw [flipCells_not_mem h]
  · rw [flipCells_not_mem h, rotate180_off g h]

theorem foldl_apply_off {N : Nat} {wraparound : Bool} {x y : Nat}
    (l : List (Nat × Nat)) (g : Grid)
    (h : ∀ q ∈ l, (x, y) ∉ blockIndices N q.1 q.2) :
    l.foldl (fun g q => apply_block_rules N wraparound g q.1 q.2) g x y =
      g x y := by
  induction l generalizing g with
  | nil => rfl
  | cons a l ih =>
    rw [List.foldl_cons, ih _ (fun q hq => h q (List.mem_cons_of_mem _ hq))]
    exact apply_block_rules_off (h a (List.mem_cons_self _ _))

/-- C10: on a non-wraparound even-size grid, a step over the offset-1
block list (blocks_even) leaves the whole border ring — row 0, row N-1,
column 0 and column N-1 — unchanged. -/
theorem blockCA_C10 (N : Nat) (p : ℚ) (glider : Option (List (List Nat)))
    (init_mode : String) (r : Nat → Nat → ℚ) (rt rl : Nat) (b : Board)
    (hb : mkBoard N p false glider init_mode r rt rl = some b)
    (hN : N % 2 = 0) (x y : Nat)
    (hxy : x = 0 ∨ x = N - 1 ∨ y = 0 ∨ y = N - 1) :
    (b.step true).grid x y = b.grid x y := by
  obtain ⟨hNf, hw, he, ho⟩ := mkBoard_fields hb
  simp only [Board.step, Board.activeBlocks, if_pos]
  rw [he, hNf, hw]
  apply foldl_apply_off
  intro q hq
  rw [mem_create_blocks] at hq
  obtain ⟨⟨h1i, h2i, h3i⟩, ⟨h1j, h2j, h3j⟩, hwb⟩ := hq
  have hb2 : q.1 + 1 < N ∧ q.2 + 1 < N := by
    rcases hwb with hc | hc
    · exact absurd hc (by simp)
    · exact hc
  rw [mem_blockIndices, Nat.mod_eq_of_lt (by omega : q.1 + 1 < N),
    Nat.mod_eq_of_lt (by omega : q.2 + 1 < N)]
  rintro ⟨hx', hy'⟩
  omega

/-- C10 witness: on the 4x4 non-wraparound board the blocks_even step
leaves the corner cell (0,0) unchanged. -/
theorem blockCA_C10_witness :
    ∃ b, mkBoard 4 (mkRat 1 2) false none "Random" (fun _ _ => (1 : ℚ)) 0 0 =
        some b ∧
      (b.step true).grid 0 0 = b.grid 0 0 := by
  refine ⟨⟨4, false, create_blocks 4 false 1, create_blocks 4 false 0,
    fun x y => if (1 : ℚ) < mkRat 1 2 then 1 else 0⟩, by rfl, ?_⟩
  exact blockCA_C10 4 (mkRat 1 2) none "Random" (fun _ _ => (1 : ℚ)) 0 0 _ rfl
    (by decide) 0 0 (Or.inl rfl)

/-! ### Which tiling a step uses -/

/-- C1 counterexample: on a fresh 4x4 wraparound engine the step counter
is 0 (even), yet the active block list is [(1,1),(1,3),(3,1),(3,3)] — the
origins starting at (1,1) — and not the origins starting at (0,0). -/
theorem blockCA_C1_cex :
    (mkGameManager 4 (mkRat 1 2) 250 true none "Random"
        (fun _ _ => (1 : ℚ)) 0 0).map
        (fun gm => gm.board.activeBlocks (gm.current_step % 2 == 0)) =
      some [(1, 1), (1, 3), (3, 1), (3, 3)] ∧
    ([(1, 1), (1, 3), (3, 1), (3, 3)] : List (Nat × Nat)) ≠
      [(0, 0), (0, 2), (2, 0), (2, 2)] :=
  ⟨by rfl, by decide⟩

/-- The repeated step() calls of the driver loop change only the grid and
the counter: size, wraparound flag and the two block lists are those of
the initial engine, and the counter advances by one per call. -/
theorem stepN_invariants (gm : GameManager) (k : Nat) :
    (gm.stepN k).current_step = gm.current_step + k ∧
    (gm.stepN k).board.N = gm.board.N ∧
    (gm.stepN k).board.wraparound = gm.board.wraparound ∧
    (gm.stepN k).board.blocks_even = gm.board.blocks_even ∧
    (gm.stepN k).board.blocks_odd = gm.board.blocks_odd := by
  induction k with
  | zero => exact ⟨rfl, rfl, rfl, rfl, rfl⟩
  | succ k ih =>
    obtain ⟨h1, h2, h3, h4, h5⟩ := ih
    simp only [GameManager.stepN, GameManager.step, Board.step]
    exact ⟨by omega, h2, h3, h4, h5⟩

/-- C1 amended: on any engine state reached after k step() calls, the
counter equals k, and a further step() call applies the block rule to the
origins of the blocks_even list — which start at (1,1) and step by 2 —
when that counter is even, and to the blocks_odd list — whose origins
start at (0,0) and step by 2 — when it is odd. -/
theorem blockCA_C1_amended (N : Nat) (p : ℚ) (max_steps : Nat)
    (wraparound : Bool) (glider : Option (List (List Nat)))
    (init_mode : String) (r : Nat → Nat → ℚ) (rt rl : Nat)
    (gm0 : GameManager) (k : Nat)
    (h : mkGameManager N p max_steps wraparound glider init_mode r rt rl =
      some gm0) :
    (gm0.stepN k).current_step = k ∧
    ((gm0.stepN k).step).board.grid =
      ((if (gm0.stepN k).current_step % 2 = 0 then create_blocks N wraparound 1
        else create_blocks N wraparound 0).foldl
        (fun g q => apply_block_rules N wraparound g q.1 q.2)
        (gm0.stepN k).board.grid) ∧
    (∀ i j, (i, j) ∈ create_blocks N wraparound 1 ↔
      ((1 ≤ i ∧ i < N ∧ i % 2 = 1) ∧ (1 ≤ j ∧ j < N ∧ j % 2 = 1) ∧
        (wraparound = true ∨ (i + 1 < N ∧ j + 1 < N)))) ∧
    (∀ i j, (i, j) ∈ create_blocks N wraparound 0 ↔
      ((i < N ∧ i % 2 = 0) ∧ (j < N ∧ j % 2 = 0) ∧
        (wraparound = true ∨ (i + 1 < N ∧ j + 1 < N)))) := by
  obtain ⟨hN, hw, hc0, hbb⟩ := mkGameManager_fields h
  obtain ⟨hbN, hbw, hbe, hbo⟩ := mkBoard_fields hbb
  obtain ⟨s1, s2, s3, s4, s5⟩ := stepN_invariants gm0 k
  refine ⟨by omega, ?_, ?_, ?_⟩
  · simp only [GameManager.step, Board.step, Board.activeBlocks]
    rw [s2, s3, s4, s5, hbe, hbo, hbN, hbw]
    by_cases hpar : (gm0.stepN k).current_step % 2 = 0
    · rw [if_pos (by simpa using hpar), if_pos hpar]
    · rw [if_neg (by simpa using hpar), if_neg hpar]
  · intro i j
    rw [mem_create_blocks]
    constructor
    · rintro ⟨⟨a1, a2, a3⟩, ⟨b1, b2, b3⟩, hc⟩
      exact ⟨⟨a1, a2, by omega⟩, ⟨b1, b2, by omega⟩, hc⟩
    · rintro ⟨⟨a1, a2, a3⟩, ⟨b1, b2, b3⟩, hc⟩
      exact ⟨⟨a1, a2, by omega⟩, ⟨b1, b2, by omega⟩, hc⟩
  · intro i j
    rw [mem_create_blocks]
    constructor
    · rintro ⟨⟨a1, a2, a3⟩, ⟨b1, b2, b3⟩, hc⟩
      exact ⟨⟨a2, by omega⟩, ⟨b2, by omega⟩, hc⟩
    · rintro ⟨⟨a2, a3⟩, ⟨b2, b3⟩, hc⟩
      exact ⟨⟨by omega, a2, by omega⟩, ⟨by omega, b2, by omega⟩, hc⟩

/-- C1 witness: the amended tiling-selection theorem on the 4x4
wraparound engine after one step() call, i.e. at the odd counter 1. -/
theorem blockCA_C1_amended_witness :
    ∃ gm0, mkGameManager 4 (mkRat 1 2) 250 true none "Random"
        (fun _ _ => (1 : ℚ)) 0 0 = some gm0 ∧
      ((gm0.stepN 1).current_step = 1 ∧
      ((gm0.stepN 1).step).board.grid =
        ((if (gm0.stepN 1).current_step % 2 = 0 then create_blocks 4 true 1
          else create_blocks 4 true 0).foldl
          (fun g q => apply_block_rules 4 true g q.1 q.2)
          (gm0.stepN 1).board.grid) ∧
      (∀ i j, (i, j) ∈ create_blocks 4 true 1 ↔
        ((1 ≤ i ∧ i < 4 ∧ i % 2 = 1) ∧ (1 ≤ j ∧ j < 4 ∧ j % 2 = 1) ∧
          (true = true ∨ (i + 1 < 4 ∧ j + 1 < 4)))) ∧
      (∀ i j, (i, j) ∈ create_blocks 4 true 0 ↔
        ((i < 4 ∧ i % 2 = 0) ∧ (j < 4 ∧ j % 2 = 0) ∧
          (true = true ∨ (i + 1 < 4 ∧ j + 1 < 4))))) := by
  refine ⟨⟨4, mkRat 1 2, 250, true,
    ⟨4, true, create_blocks 4 true 1, create_blocks 4 true 0,
      fun x y => if (1 : ℚ) < mkRat 1 2 then 1 else 0⟩, 0⟩, by rfl, ?_⟩
  exact blockCA_C1_amended 4 (mkRat 1 2) 250 true none "Random"
    (fun _ _ => (1 : ℚ)) 0 0 _ 1 (by rfl)

/-! ### Construction-time validation -/

/-- C7 counterexample: the engine constructor accepts the odd size N = 3
without any error — no InvalidConfiguration check exists. -/
theorem blockCA_C7_cex :
    (mkGameManager 3 (mkRat 1 2) 250 true none "Random"
        (fun _ _ => (1 : ℚ)) 0 0).isSome = true ∧
    3 % 2 = 1 :=
  ⟨by rfl, by decide⟩

/-- C7 amended: in the non-glider modes, construction fails iff the grid
is non-empty and p lies outside [0,1] (the failure coming from numpy's
probability validation inside cell initialization); a non-positive or odd
N is accepted silently, and no InvalidConfiguration error type exists. -/
theorem blockCA_C7_amended (N : Nat) (p : ℚ) (max_steps : Nat)
    (wraparound : Bool) (init_mode : String) (r : Nat → Nat → ℚ)
    (rt rl : Nat) :
    mkGameManager N p max_steps wraparound none init_mode r rt rl = none ↔
      (1 ≤ N ∧ ¬(0 ≤ p ∧ p ≤ 1)) := by
  unfold mkGameManager mkBoard
  by_cases hv : 1 ≤ N ∧ ¬(0 ≤ p ∧ p ≤ 1)
  · simp [hv]
  · simp only [if_neg hv]
    split_ifs <;> simp [hv] <;> tauto

/-- C7 witness: the amended validation theorem at the out-of-range
probability p = 3, where construction does fail. -/
theorem blockCA_C7_amended_witness :
    mkGameManager 4 3 250 true none "Random" (fun _ _ => (1 : ℚ)) 0 0 =
      none :=
  (blockCA_C7_amended 4 3 250 true "Random" (fun _ _ => (1 : ℚ)) 0 0).mpr
    (by norm_num)

/-- C8: when the 4-row glider cannot be placed at any odd-aligned origin
of a 4x4 grid, construction dies inside the out-of-range random draw
(np.random.randint(0, 0)) rather than raising a dedicated
DegeneratePlacement error: the failure is the draw itself. -/
theorem blockCA_C8_thm :
    place_pattern 4 gZero gliderPattern 0 0 = none ∧
    mkBoard 4 1 true (some gliderPattern) "Glider" (fun _ _ => (1 : ℚ))
      0 0 = none :=
  ⟨by rfl, by rfl⟩

/-! ### Pattern placement -/

theorem mkBoard_glider {N : Nat} {p : ℚ} {wraparound : Bool}
    {pat : List (List Nat)} {init_mode : String} {r : Nat → Nat → ℚ}
    {rt rl : Nat} {b : Board}
    (h : mkBoard N p wraparound (some pat) init_mode r rt rl = some b) :
    place_pattern N (fun x y => if r x y < p then 1 else 0) pat rt rl =
      some b.grid := by
  simp only [mkBoard] at h
  split at h
  · exact absurd h (by simp)
  · split at h
    · rw [Option.some_inj] at h
      subst h
      assumption
    · exact absurd h (by simp)

theorem place_pattern_some {N : Nat} {g : Grid} {pattern : List (List Nat)}
    {rt rl : Nat} {g2 : Grid}
    (h : place_pattern N g pattern rt rl = some g2) :
    ∃ top left,
      top % 2 = 1 ∧ left % 2 = 1 ∧
      top + pattern.length ≤ N ∧
      left + (pattern.headD []).length ≤ N ∧
      g2 = stamp N pattern top left g := by
  simp only [place_pattern] at h
  split at h
  · exact absurd h (by simp)
  · split at h
    · exact absurd h (by simp)
    · rename_i hlen hk
      rw [Option.some_inj] at h
      rw [not_or, not_le, not_le] at hk
      obtain ⟨hk1, hk2⟩ := hk
      rw [Int.fdiv_eq_ediv _ (by norm_num)] at hk1 h
      rw [Int.fdiv_eq_ediv _ (by norm_num)] at hk2 h
      refine ⟨_, _, ?_, ?_, ?_, ?_, h.symm⟩
      · omega
      · omega
      · have hpos : 0 < ((((N : Int) - pattern.length + 1) / 2)).toNat := by
          omega
        have := Nat.mod_lt rt hpos
        omega
      · have hpos :
            0 < ((((N : Int) - (pattern.headD []).length + 1) / 2)).toNat := by
          omega
        have := Nat.mod_lt rl hpos
        omega

/-- C9 counterexample: a 6x6 glider-mode board (the GUI passes p = 1.0 in
glider mode) has its cell (0,0) — outside any stamped region, since the
placement origin has odd coordinates — ALIVE, not dead: the cells outside
the pattern keep their random initialization. -/
theorem blockCA_C9_cex :
    (mkBoard 6 1 true (some gliderPattern) "Glider"
        (fun _ _ => mkRat 1 2) 0 0).map (fun b => b.grid 0 0) ≠
      some 0 ∧
    (mkBoard 6 1 true (some gliderPattern) "Glider"
        (fun _ _ => mkRat 1 2) 0 0).map (fun b => b.grid 0 0) =
      some 1 := by
  constructor
  · intro hc
    have h1 : (mkBoard 6 1 true (some gliderPattern) "Glider"
        (fun _ _ => mkRat 1 2) 0 0).map (fun b => b.grid 0 0) =
        some 1 := by rfl
    rw [h1] at hc
    exact absurd (Option.some_inj.mp hc) (by decide)
  · rfl

/-- C9 amended: in pattern-stamp mode the placement origin (top, left)
has both coordinates odd and keeps the pattern inside the grid, the
pattern's values are copied onto the grid at that origin, and every cell
outside the stamped region keeps its p-random initial state (so it is not
necessarily dead). -/
theorem blockCA_C9_amended (N : Nat) (p : ℚ) (wraparound : Bool)
    (pat : List (List Nat)) (init_mode : String) (r : Nat → Nat → ℚ)
    (rt rl : Nat) (b : Board)
    (hb : mkBoard N p wraparound (some pat) init_mode r rt rl = some b)
    (hrect : ∀ row ∈ pat, row.length = (pat.headD []).length) :
    ∃ top left,
      top % 2 = 1 ∧ left % 2 = 1 ∧
      top + pat.length ≤ N ∧ left + (pat.headD []).length ≤ N ∧
      (∀ a row, pat[a]? = some row → ∀ c v, row[c]? = some v →
        b.grid (top + a) (left + c) = v) ∧
      (∀ x y, x < N → y < N →
        (x < top ∨ top + pat.length ≤ x ∨ y < left ∨
          left + (pat.headD []).length ≤ y) →
        b.grid x y = if r x y < p then 1 else 0) := by
  obtain ⟨top, left, h1, h2, h3, h4, hg⟩ :=
    place_pattern_some (mkBoard_glider hb)
  refine ⟨top, left, h1, h2, h3, h4, ?_, ?_⟩
  · intro a row ha c v hc
    have haN : a < pat.length := by
      rcases List.getElem?_eq_some.mp ha with ⟨hlt, _⟩
      exact hlt
    have hcw : c < row.length := by
      rcases List.getElem?_eq_some.mp hc with ⟨hlt, _⟩
      exact hlt
    have hrow : row.length = (pat.headD []).length :=
      hrect row (List.getElem?_mem ha)
    rw [hg]
    simp only [stamp]
    rw [if_pos ⟨by omega, by omega, by omega, by omega⟩,
      Nat.add_sub_cancel_left, Nat.add_sub_cancel_left, ha,
      Option.some_bind, hc, Option.getD_some]
  · intro x y hx hy hcase
    rw [hg]
    simp only [stamp]
    by_cases hguard : top ≤ x ∧ left ≤ y ∧ x < N ∧ y < N
    · rw [if_pos hguard]
      rcases hcase with hc | hc | hc | hc
      · omega
      · rw [List.getElem?_eq_none (by omega : pat.length ≤ x - top)]
        rfl
      · omega
      · cases hrow : pat[x - top]? with
        | none => rfl
        | some row =>
          rw [Option.some_bind, List.getElem?_eq_none
            (by rw [hrect row (List.getElem?_mem hrow)]; omega :
              row.length ≤ y - left)]
          rfl
    · rw [if_neg hguard]

/-- C9 witness: the amended placement theorem instantiated on the 6x6
glider-mode board with p = 1 (the value the GUI passes in glider mode). -/
theorem blockCA_C9_amended_witness :
    ∃ b, mkBoard 6 1 true (some gliderPattern) "Glider"
        (fun _ _ => mkRat 1 2) 0 0 = some b ∧
      (∃ top left,
        top % 2 = 1 ∧ left % 2 = 1 ∧
        top + gliderPattern.length ≤ 6 ∧
        left + (gliderPattern.headD []).length ≤ 6 ∧
        (∀ a row, gliderPattern[a]? = some row →
          ∀ c v, row[c]? = some v → b.grid (top + a) (left + c) = v) ∧
        (∀ x y, x < 6 → y < 6 →
          (x < top ∨ top + gliderPattern.length ≤ x ∨ y < left ∨
            left + (gliderPattern.headD []).length ≤ y) →
          b.grid x y = if (fun _ _ => mkRat 1 2) x y < (1 : ℚ) then 1
            else 0)) := by
  refine ⟨⟨6, true, create_blocks 6 true 1, create_blocks 6 true 0,
    stamp 6 gliderPattern 1 1
      (fun x y => if mkRat 1 2 < (1 : ℚ) then 1 else 0)⟩, by rfl, ?_⟩
  exact blockCA_C9_amended 6 1 true gliderPattern "Glider"
    (fun _ _ => mkRat 1 2) 0 0 _ (by rfl) (by decide)

end BlockCA
